import Mathlib

set_option maxRecDepth 100000

/-!
Shallow embedding of the car-valuation-turkey core pipeline
(src/preprocessing.py and src/model.py) and proofs about it.

Modelling conventions:
* Python integers are unbounded, so `year` and `price` are `ℤ`.
* Float quantities (quantile positions, model predictions, squared errors)
  are modelled as `ℚ`; Python's banker's rounding `round` is `pyRound`.
* sklearn regressors are opaque total functions: a fitted regressor is an
  `SkModel` (its `predict` method), and the fitting routine of a candidate
  regressor is a `Fitter` parameter.  sklearn's seeded train/test shuffle
  (`random_state=42`) is likewise an opaque `shuffle` parameter; the
  empty-partition check that `train_test_split` performs before shuffling is
  embedded explicitly.
* The pickle files written by `save_model` / read by `load_model` are a
  filesystem `FS`: an association list from path strings to file contents.
-/

/-- A raw scalar in a record field before type normalization: either an
integer, or a string that `astype(int)` cannot coerce (`Val.vstr`).  Numeric
strings are not modelled separately since no claim depends on them. -/
inductive Val where
  | vint (n : ℤ)
  | vstr (s : String)
  deriving DecidableEq

/-- Coercion of a raw scalar to an integer, as pandas `astype(int)` does per
cell: integers pass through, uncoercible strings fail. -/
def Val.toInt? : Val → Option ℤ
  | .vint n => some n
  | .vstr _ => none

/-- One raw dataset record as loaded from JSON.  A missing (null) field is
`none`; this is what `df.isnull` detects and `df.dropna` removes. -/
structure RawRecord where
  year : Option Val
  brand : Option String
  model : Option String
  package : Option String
  price : Option Val
  deriving DecidableEq

/-- One record after missing-value removal and type normalization. -/
structure CleanRecord where
  year : ℤ
  brand : String
  model : String
  package : String
  price : ℤ
  deriving DecidableEq

/-- Reinjection of a clean record into the raw record shape, used to feed the
output of `clean_data` back into `clean_data` (idempotence claims). -/
def CleanRecord.toRaw (r : CleanRecord) : RawRecord :=
  ⟨some (.vint r.year), some r.brand, some r.model, some r.package, some (.vint r.price)⟩

/-- Whether a record has no missing field (`df.isnull().sum()` finds nothing
in this row, so `df.dropna()` keeps it). -/
def RawRecord.allPresent (r : RawRecord) : Bool :=
  r.year.isSome && r.brand.isSome && r.model.isSome && r.package.isSome && r.price.isSome

/-- Type normalization of one record: `year` and `price` through
`astype(int)`, string fields unchanged. -/
def coerceRecord (r : RawRecord) : Option CleanRecord :=
  match r.year.bind Val.toInt?, r.brand, r.model, r.package, r.price.bind Val.toInt? with
  | some y, some b, some m, some p, some pr => some ⟨y, b, m, p, pr⟩
  | _, _, _, _, _ => none

/-- Column-wise `astype(int)` over the whole frame (preprocessing.py 48-49):
a single uncoercible value raises a ValueError that aborts `clean_data`;
there is no record-level rejection. -/
def coerceRecords : List RawRecord → Except String (List CleanRecord)
  | [] => .ok []
  | r :: rs =>
    match coerceRecord r with
    | some c => (coerceRecords rs).map (fun l => c :: l)
    | none => .error "invalid literal for int"

/-- Insertion step of an insertion sort on integers. -/
def insertInt (x : ℤ) : List ℤ → List ℤ
  | [] => [x]
  | y :: ys => if x ≤ y then x :: y :: ys else y :: insertInt x ys

/-- Ascending sort of the price column, used by the quantile computation. -/
def sortInts (l : List ℤ) : List ℤ := l.foldr insertInt []

/-- pandas `Series.quantile(q)` with the default linear interpolation between
order statistics: on the sorted values `s` of length `n`, the quantile sits at
position `q * (n - 1)`; interpolate between the two neighbouring order
statistics.  `clean_data` only filters with the bounds, and filtering an empty
frame removes nothing, so the (NaN) quantile of an empty series is modelled
as 0. -/
def quantileLin (l : List ℤ) (q : ℚ) : ℚ :=
  let s := sortInts l
  if s.isEmpty then 0
  else
    let n := s.length
    let pos : ℚ := q * ((n : ℚ) - 1)
    let h : ℕ := (⌊pos⌋).toNat
    let a : ℚ := ((s.getD h 0 : ℤ) : ℚ)
    let b : ℚ := ((s.getD (h + 1) (s.getD h 0) : ℤ) : ℚ)
    a + (pos - (h : ℚ)) * (b - a)

/-- Step 3 of `clean_data` (preprocessing.py 51-65): IQR outlier filter on
`price`.  Quartiles are computed over the current record set; records outside
`[Q1 - 1.5*IQR, Q3 + 1.5*IQR]` are dropped (the guard `outlier_count > 0`
mirrors the source and is a no-op when nothing is outside the bounds). -/
def iqrOutlierStage (l : List CleanRecord) : List CleanRecord :=
  let q1 := quantileLin (l.map CleanRecord.price) (1/4)
  let q3 := quantileLin (l.map CleanRecord.price) (3/4)
  let iqr := q3 - q1
  let lower := q1 - 3/2 * iqr
  let upper := q3 + 3/2 * iqr
  let outlierCount :=
    (l.filter (fun r => decide ((r.price : ℚ) < lower) || decide (upper < (r.price : ℚ)))).length
  if 0 < outlierCount then
    l.filter (fun r => decide (lower ≤ (r.price : ℚ)) && decide ((r.price : ℚ) ≤ upper))
  else l

/-- Helper for first-occurrence duplicate removal, carrying the set of values
already emitted. -/
def dropDupsAux {α : Type} [DecidableEq α] (seen : List α) : List α → List α
  | [] => []
  | x :: xs => if x ∈ seen then dropDupsAux seen xs else x :: dropDupsAux (x :: seen) xs

/-- pandas `drop_duplicates` (step 4 of `clean_data`): fully identical records
are collapsed to the first occurrence, order preserved. -/
def dropDuplicates {α : Type} [DecidableEq α] (l : List α) : List α := dropDupsAux [] l

/-- clean_data (preprocessing.py 21-78): drop records with missing fields,
coerce `year`/`price` to integers (column-wise; an uncoercible value raises),
drop IQR price outliers, drop duplicate records.  `reset_index` has no
counterpart in the list model. -/
def clean_data (df : List RawRecord) : Except String (List CleanRecord) :=
  let present := df.filter RawRecord.allPresent
  match coerceRecords present with
  | .error e => .error e
  | .ok typed => .ok (dropDuplicates (iqrOutlierStage typed))

/-- Insertion step of an insertion sort on strings (code-point order, as
numpy's sort of python strings). -/
def insertStr (x : String) : List String → List String
  | [] => [x]
  | y :: ys => if decide (x < y) || x == y then x :: y :: ys else y :: insertStr x ys

/-- Ascending sort on strings. -/
def sortStr (l : List String) : List String := l.foldr insertStr []

/-- Index of the first occurrence of a value in a list (the position
`numpy.searchsorted` finds in the sorted, duplicate-free `classes_`). -/
def idxOf (v : String) : List String → ℕ
  | [] => 0
  | x :: xs => if x = v then 0 else idxOf v xs + 1

namespace LabelEncoder

/-- sklearn `LabelEncoder.fit`: `classes_ = numpy.unique(values)`, the sorted
list of distinct values seen at fit time. -/
def fit (values : List String) : List String := sortStr (dropDuplicates values)

/-- sklearn `LabelEncoder.transform` on one value: its index in `classes_`
(searchsorted on the sorted class list); a value absent from `classes_`
raises a ValueError carrying the offending value. -/
def transform (classes : List String) (v : String) : Except String ℕ :=
  if v ∈ classes then .ok (idxOf v classes) else .error v

/-- sklearn `LabelEncoder.inverse_transform` on one code: `classes_[code]`. -/
def inverse_transform (classes : List String) (c : ℕ) : Option String :=
  classes.get? c

end LabelEncoder

/-- The three fitted per-column encoders (`encoders` dict of the source),
each represented by its `classes_` list. -/
structure Encoders where
  brand : List String
  model : List String
  package : List String
  deriving DecidableEq

/-- One record after categorical encoding (the transient encoded frame). -/
structure EncRecord where
  year : ℤ
  brand : ℕ
  model : ℕ
  package : ℕ
  price : ℤ
  deriving DecidableEq

/-- encode_features (preprocessing.py 81-100): fit one LabelEncoder per
categorical column over the full data and replace the column by its codes
(`fit_transform`; every value is fitted, so `transform` succeeds and equals
`indexOf` into `classes_`). -/
def encode_features (records : List CleanRecord) : List EncRecord × Encoders :=
  let eb := LabelEncoder.fit (records.map CleanRecord.brand)
  let em := LabelEncoder.fit (records.map CleanRecord.model)
  let ep := LabelEncoder.fit (records.map CleanRecord.package)
  (records.map (fun r => ⟨r.year, idxOf r.brand eb, idxOf r.model em, idxOf r.package ep, r.price⟩),
   ⟨eb, em, ep⟩)

/-- An opaque fitted sklearn regressor: its `predict` on a single feature row
`(year, brand_code, model_code, package_code)`. -/
structure SkModel where
  predict : ℤ → ℕ → ℕ → ℕ → ℚ

/-- Contents of one pickle file: either a pickled model or pickled encoders. -/
inductive Entry where
  | mdl (m : SkModel)
  | enc (e : Encoders)

/-- The filesystem seen by `save_model`/`load_model`: an association list from
paths to file contents; the most recent write shadows older ones. -/
def FS : Type := List (String × Entry)

/-- Writing one file (`pickle.dump` to an opened path). -/
def fsWrite (fs : FS) (p : String) (v : Entry) : FS := (p, v) :: fs

/-- Reading one file (`open(path, "rb")`): the most recent write to the path,
or `none` (FileNotFoundError) if the path was never written. -/
def fsRead (fs : FS) (p : String) : Option Entry :=
  match fs with
  | [] => none
  | (k, v) :: rest => if k = p then some v else fsRead rest p

/-- Default model artifact location (model.py 24, relative to BASE_DIR). -/
def MODEL_PATH : String := "output/model.pkl"

/-- Splitting a character list at slashes (helper for `dirName`);
the accumulator holds the current component reversed. -/
def splitSlashAux : List Char → List Char → List (List Char)
  | [], acc => [acc.reverse]
  | c :: cs, acc => if c = '/' then acc.reverse :: splitSlashAux cs [] else splitSlashAux cs (c :: acc)

/-- Joining path components with slashes (helper for `dirName`). -/
def joinSlash : List (List Char) → List Char
  | [] => []
  | [x] => x
  | x :: y :: xs => x ++ '/' :: joinSlash (y :: xs)

/-- os.path.dirname on a slash-separated path: all components but the last. -/
def dirName (p : String) : String := ⟨joinSlash ((splitSlashAux p.data []).dropLast)⟩

/-- The encoders file path both `save_model` and `load_model` derive from the
model path: `os.path.join(os.path.dirname(model_path), "encoders.pkl")`. -/
def encoderPathFor (modelPath : String) : String :=
  let d := dirName modelPath
  if d = "" then "encoders.pkl" else d ++ "/encoders.pkl"

/-- Default encoders artifact location (model.py 25). -/
def ENCODER_PATH : String := "output/encoders.pkl"

/-- Errors surfaced by the prediction path: a missing/ill-typed artifact file
(FileNotFoundError / corrupt pickle) or the ValueError that `predict_price`
raises for an unfitted category, carrying the field name, the offending value
and the list of valid values. -/
inductive PError where
  | loadError (path : String)
  | unknownCategory (field : String) (value : String) (valid : List String)
  deriving DecidableEq

/-- save_model (model.py 103-113): pickle the model to the model path, then —
as a second, separate write — pickle the encoders to the derived encoders
path.  There is no transactional link between the two writes. -/
def save_model (model : SkModel) (encoders : Encoders) (fs : FS)
    (path : String := MODEL_PATH) : FS :=
  fsWrite (fsWrite fs path (.mdl model)) (encoderPathFor path) (.enc encoders)

/-- load_model (model.py 116-124): unpickle the model file, then the encoders
file; a missing (or non-model/non-encoders) file fails the load. -/
def load_model (fs : FS) (path : String := MODEL_PATH) :
    Except PError (SkModel × Encoders) :=
  match fsRead fs path with
  | some (.mdl m) =>
    match fsRead fs (encoderPathFor path) with
    | some (.enc e) => .ok (m, e)
    | _ => .error (.loadError (encoderPathFor path))
  | _ => .error (.loadError path)

/-- Python's built-in `round` (banker's rounding, half to even) on a rational:
round to the nearest integer, ties to the even neighbour. -/
def pyRound (q : ℚ) : ℤ :=
  if q - (⌊q⌋ : ℚ) < 1/2 then ⌊q⌋
  else if (1 : ℚ)/2 < q - (⌊q⌋ : ℚ) then ⌊q⌋ + 1
  else if ⌊q⌋ % 2 = 0 then ⌊q⌋ else ⌊q⌋ + 1

/-- One try/except block of predict_price (model.py 142-164): transform the
value with the fitted encoder; on ValueError re-raise with the field name,
the offending value, and the full list of valid classes. -/
def transform_field (field : String) (classes : List String) (v : String) :
    Except PError ℕ :=
  match LabelEncoder.transform classes v with
  | .ok c => .ok c
  | .error bad => .error (.unknownCategory field bad classes)

/-- Body of predict_price after the bundle is loaded (model.py 142-171):
validate/encode brand, then model, then package, then invoke the model on the
single feature row; the result is the raw float prediction. -/
def raw_prediction_of (model : SkModel) (encoders : Encoders) (year : ℤ)
    (brand modelName package : String) : Except PError ℚ :=
  match transform_field "brand" encoders.brand brand with
  | .error e => .error e
  | .ok bc =>
    match transform_field "model" encoders.model modelName with
    | .error e => .error e
    | .ok mc =>
      match transform_field "package" encoders.package package with
      | .error e => .error e
      | .ok pc => .ok (model.predict year bc mc pc)

/-- predict_price up to (and excluding) quantization: reload the bundle from
the fixed default location (model.py 140), then encode and predict. -/
def raw_prediction (fs : FS) (year : ℤ) (brand modelName package : String) :
    Except PError ℚ :=
  match load_model fs MODEL_PATH with
  | .error e => .error e
  | .ok (m, encs) => raw_prediction_of m encs year brand modelName package

/-- predict_price (model.py 127-172): the raw prediction quantized by
`int(round(p / 10_000) * 10_000)`. -/
def predict_price (fs : FS) (year : ℤ) (brand modelName package : String) :
    Except PError ℤ :=
  match raw_prediction fs year brand modelName package with
  | .error e => .error e
  | .ok p => .ok (pyRound (p / 10000) * 10000)

/-- fiyat_tahmin_et (model.py 176-190): the Turkish-named wrapper; its body is
exactly `return predict_price(yil, marka, model, paket)`. -/
def fiyat_tahmin_et (fs : FS) (yil : ℤ) (marka model paket : String) :
    Except PError ℤ :=
  predict_price fs yil marka model paket

/-- The opaque fitting routine of one sklearn candidate regressor: fed the
train partition, returns a fitted model.  sklearn fit never raises here (it
fits fine on a constant target). -/
def Fitter : Type := List EncRecord → SkModel

/-- mean_squared_error of a fitted model over the test partition.  The source
selects by RMSE = sqrt(MSE); sqrt is strictly monotone, so comparisons of MSE
decide exactly the source's comparisons of RMSE. -/
def mseOn (m : SkModel) (test : List EncRecord) : ℚ :=
  ((test.map (fun r => (m.predict r.year r.brand r.model r.package - (r.price : ℚ)) ^ 2)).sum)
    / (test.length : ℚ)

/-- One iteration of the best-model loop (model.py 92-95): keep the incumbent
unless the new candidate's error is strictly smaller.  The initial
`best_rmse = inf` is the `none` accumulator: the first candidate always
replaces it. -/
def selectStep {α : Type} (best : Option (α × ℚ)) (c : α × ℚ) : Option (α × ℚ) :=
  match best with
  | none => some c
  | some b => if c.2 < b.2 then some c else some b

/-- The selection loop of train_models (model.py 66-98) over the scored
candidates in iteration order. -/
def selectBest {α : Type} (cands : List (α × ℚ)) : Option (α × ℚ) :=
  cands.foldl selectStep none

/-- First-seen-minimum specification: `c` occurs in `l`, every candidate
before it has strictly larger error, every candidate after it has error at
least as large. -/
def IsFirstMin {α : Type} (l : List (α × ℚ)) (c : α × ℚ) : Prop :=
  ∃ pre post, l = pre ++ c :: post ∧ (∀ x ∈ pre, c.2 < x.2) ∧ (∀ x ∈ post, c.2 ≤ x.2)

/-- Errors train_models can actually raise: the ValueError of
`train_test_split` when a partition would be empty, and the ValueError
propagated from `encoders[col].transform` on an unfitted value (the
`encoders is not None` branch). -/
inductive TrainError where
  | emptySplit
  | unknownCategory (value : String)
  deriving DecidableEq

/-- The parts of train_models' return value the claims are about: selected
model and name, the encoders, and the per-candidate scores in iteration
order. -/
structure TrainOutput where
  bestName : String
  bestModel : SkModel
  encoders : Encoders
  scores : List (String × ℚ)

/-- The `encoders is not None` branch of train_models (model.py 42-44):
transform every categorical value with the supplied encoders; an unfitted
value raises. -/
def transformWith (encs : Encoders) : List CleanRecord → Except TrainError (List EncRecord)
  | [] => .ok []
  | r :: rs =>
    match LabelEncoder.transform encs.brand r.brand,
          LabelEncoder.transform encs.model r.model,
          LabelEncoder.transform encs.package r.package with
    | .ok b, .ok m, .ok p => (transformWith encs rs).map (fun l => ⟨r.year, b, m, p, r.price⟩ :: l)
    | .error v, _, _ => .error (.unknownCategory v)
    | _, .error v, _ => .error (.unknownCategory v)
    | _, _, .error v => .error (.unknownCategory v)

/-- Body of train_models after the encoding step (model.py 46-100): split
80/20 (test size `ceil(0.2 * n)`; sklearn's `train_test_split` raises before
shuffling when either partition would be empty), fit the three candidates on
the train partition, score each on the test partition, and select by the
strict-improvement loop in the fixed iteration order Linear Regression,
Random Forest, Gradient Boosting. -/
def train_models_core (rows : List EncRecord) (encs : Encoders)
    (shuffle : List EncRecord → List EncRecord) (fitLR fitRF fitGB : Fitter) :
    Except TrainError TrainOutput :=
  let n := rows.length
  let nTest := (n + 4) / 5
  if nTest = 0 ∨ n - nTest = 0 then .error .emptySplit
  else
    let shuffled := shuffle rows
    let testRows := shuffled.take nTest
    let trainRows := shuffled.drop nTest
    let cands := [("Linear Regression", fitLR trainRows),
                  ("Random Forest", fitRF trainRows),
                  ("Gradient Boosting", fitGB trainRows)]
    let scored := cands.map (fun c => (c, mseOn c.2 testRows))
    match selectBest scored with
    | some best => .ok ⟨best.1.1, best.1.2, encs, scored.map (fun c => (c.1.1, c.2))⟩
    | none => .error .emptySplit

/-- train_models (model.py 28-100): encode with freshly fitted encoders (or
re-encode with supplied ones; an unfitted value raises), then run the
split/fit/score/select body.  The seeded shuffle and the three sklearn
fitting routines are opaque parameters.  There is no dataset-sufficiency
check of any kind in the source. -/
def train_models (df : List CleanRecord) (encArg : Option Encoders)
    (shuffle : List EncRecord → List EncRecord) (fitLR fitRF fitGB : Fitter) :
    Except TrainError TrainOutput :=
  match encArg with
  | none =>
    let pr := encode_features df
    train_models_core pr.1 pr.2 shuffle fitLR fitRF fitGB
  | some encs =>
    match transformWith encs df with
    | .error e => .error e
    | .ok rows => train_models_core rows encs shuffle fitLR fitRF fitGB

/-! ### General lemmas about the embedded operations -/

theorem pyRound_dist (q : ℚ) : |((pyRound q : ℤ) : ℚ) - q| ≤ 1/2 := by
  have h0 : ((⌊q⌋ : ℤ) : ℚ) ≤ q := Int.floor_le q
  have h1 : q < (⌊q⌋ : ℚ) + 1 := Int.lt_floor_add_one q
  unfold pyRound
  split_ifs with hc1 hc2 hc3
  · rw [abs_le]; constructor <;> linarith
  · rw [abs_le]; push_cast; constructor <;> linarith
  · rw [abs_le]
    have : q - (⌊q⌋ : ℚ) = 1/2 := le_antisymm (not_lt.1 hc2) (not_lt.1 hc1)
    constructor <;> linarith
  · rw [abs_le]
    have : q - (⌊q⌋ : ℚ) = 1/2 := le_antisymm (not_lt.1 hc2) (not_lt.1 hc1)
    push_cast
    constructor <;> linarith

/-! ### Concrete artifacts used by witnesses and counterexamples -/

/-- A concrete fitted model used in witness states: constant raw prediction
1234567. -/
def mW : SkModel := ⟨fun _ _ _ _ => 1234567⟩

/-- Concrete fitted encoders used in witness states. -/
def eW : Encoders := ⟨["Toyota"], ["Corolla"], ["Dream"]⟩

/-- A filesystem holding one saved bundle at the default location. -/
def fsW : FS := save_model mW eW []

/-! ### C9: the Turkish-named wrapper -/

/-- C9: for every filesystem state and every input (year, brand, model,
package), `fiyat_tahmin_et` returns exactly the same result (value or error)
as `predict_price` on that input. -/
theorem c9_fiyat_tahmin_et_equals_predict_price :
    ∀ (fs : FS) (yil : ℤ) (marka model paket : String),
      fiyat_tahmin_et fs yil marka model paket = predict_price fs yil marka model paket :=
  fun _ _ _ _ _ => rfl

/-! ### C10: predict_price reloads the bundle on every call -/

/-- C10: `predict_price` loads the bundle from the fixed default location
before anything else: if that load fails, the call returns exactly the load
error (regardless of the category inputs, i.e. before any category
validation), and the whole result of `predict_price` is determined by what
`load_model` currently reads from the filesystem. -/
theorem c10_predict_price_reload_semantics :
    ∀ (fs : FS) (y : ℤ) (b m p : String),
      (∀ e, load_model fs MODEL_PATH = .error e → predict_price fs y b m p = .error e) ∧
      (∀ fs2 : FS, load_model fs MODEL_PATH = load_model fs2 MODEL_PATH →
        predict_price fs y b m p = predict_price fs2 y b m p) := by
  intro fs y b m p
  constructor
  · intro e he
    simp only [predict_price, raw_prediction, he]
  · intro fs2 h
    simp only [predict_price, raw_prediction, h]

/-- Witness for C10 at a concrete state: on the empty filesystem the load
fails, and predict_price returns exactly that load error even though every
category input is absent from any encoder. -/
theorem c10_predict_price_reload_semantics_witness :
    load_model ([] : FS) MODEL_PATH = .error (.loadError MODEL_PATH) ∧
    predict_price ([] : FS) 2024 "Toyota" "Corolla" "Dream" = .error (.loadError MODEL_PATH) :=
  ⟨rfl, (c10_predict_price_reload_semantics [] 2024 "Toyota" "Corolla" "Dream").1 _ rfl⟩

/-! ### C2: unknown categories are rejected with full error detail -/

/-- C2: once the bundle is loaded, a brand, model, or package value that was
not in the fitted classes makes `predict_price` return an unknown-category
error (never a code or a price) carrying the offending value and the full
list of valid values for that field; fields are validated in the source order
brand, model, package. -/
theorem c2_predict_price_unknown_category :
    ∀ (fs : FS) (y : ℤ) (b m p : String) (M : SkModel) (E : Encoders),
      load_model fs MODEL_PATH = .ok (M, E) →
      (b ∉ E.brand →
        predict_price fs y b m p = .error (.unknownCategory "brand" b E.brand)) ∧
      (b ∈ E.brand → m ∉ E.model →
        predict_price fs y b m p = .error (.unknownCategory "model" m E.model)) ∧
      (b ∈ E.brand → m ∈ E.model → p ∉ E.package →
        predict_price fs y b m p = .error (.unknownCategory "package" p E.package)) := by
  intro fs y b m p M E hL
  refine ⟨?_, ?_, ?_⟩
  · intro hb
    simp [predict_price, raw_prediction, hL, raw_prediction_of, transform_field,
      LabelEncoder.transform, hb]
  · intro hb hm
    simp [predict_price, raw_prediction, hL, raw_prediction_of, transform_field,
      LabelEncoder.transform, hb, hm]
  · intro hb hm hp
    simp [predict_price, raw_prediction, hL, raw_prediction_of, transform_field,
      LabelEncoder.transform, hb, hm, hp]

/-- Witness for C2 at a concrete state: with the saved bundle whose package
classes are exactly ["Dream"], predicting with package "Nonexistent" yields
the unknown-category error naming the field, the value, and the valid list. -/
theorem c2_predict_price_unknown_category_witness :
    load_model fsW MODEL_PATH = .ok (mW, eW) ∧
    predict_price fsW 2024 "Toyota" "Corolla" "Nonexistent"
      = .error (.unknownCategory "package" "Nonexistent" ["Dream"]) :=
  ⟨rfl,
    (c2_predict_price_unknown_category fsW 2024 "Toyota" "Corolla" "Nonexistent" mW eW
      rfl).2.2 (by decide) (by decide) (by decide)⟩

/-! ### C3: output is the raw prediction quantized to a multiple of 10,000 -/

/-- C3: whenever `predict_price` succeeds, its result is the raw model
prediction rounded to a nearest multiple of 10,000 (ties to even, Python's
`round`): the result is `round(raw / 10000) * 10000`, is divisible by
10,000, and lies within 5,000 of the raw prediction. -/
theorem c3_predict_price_quantized :
    ∀ (fs : FS) (y : ℤ) (b m p : String) (r : ℤ),
      predict_price fs y b m p = .ok r →
      ∃ q : ℚ, raw_prediction fs y b m p = .ok q ∧
        r = pyRound (q / 10000) * 10000 ∧ (10000 : ℤ) ∣ r ∧ |(r : ℚ) - q| ≤ 5000 := by
  intro fs y b m p r h
  unfold predict_price at h
  cases hq : raw_prediction fs y b m p with
  | error e => rw [hq] at h; exact absurd h (by simp)
  | ok q =>
    rw [hq] at h
    simp only [Except.ok.injEq] at h
    refine ⟨q, rfl, h.symm, ⟨pyRound (q / 10000), by rw [← h]; ring⟩, ?_⟩
    have hd := pyRound_dist (q / 10000)
    have hr : (r : ℚ) = (pyRound (q / 10000) : ℚ) * 10000 := by
      rw [← h]; push_cast; ring
    have hq10 : q = q / 10000 * 10000 := by ring
    calc |(r : ℚ) - q| = |((pyRound (q / 10000) : ℚ) - q / 10000) * 10000| := by
          rw [hr]; congr 1; rw [sub_mul, ← hq10]
      _ = |(pyRound (q / 10000) : ℚ) - q / 10000| * 10000 := by
          rw [abs_mul]; norm_num
      _ ≤ 1 / 2 * 10000 := by
          exact mul_le_mul_of_nonneg_right hd (by norm_num)
      _ = 5000 := by norm_num

/-- Witness for C3 at a concrete state: the saved model predicts raw price
1234567, and predict_price returns 1230000 = round(123.4567) * 10000. -/
theorem c3_predict_price_quantized_witness :
    predict_price fsW 2024 "Toyota" "Corolla" "Dream" = .ok 1230000 ∧
    (∃ q : ℚ, raw_prediction fsW 2024 "Toyota" "Corolla" "Dream" = .ok q ∧
      (1230000 : ℤ) = pyRound (q / 10000) * 10000 ∧ (10000 : ℤ) ∣ 1230000 ∧
      |((1230000 : ℤ) : ℚ) - q| ≤ 5000) :=
  ⟨by with_unfolding_all rfl,
    c3_predict_price_quantized fsW 2024 "Toyota" "Corolla" "Dream" 1230000
      (by with_unfolding_all rfl)⟩

/-! ### C7: the persisted bundle is not one atomic unit -/

/-- Model saved by the first completed save in the C7 scenario. -/
def m1cx : SkModel := ⟨fun _ _ _ _ => 100⟩

/-- Model whose save is interrupted after its first write in the C7
scenario. -/
def m2cx : SkModel := ⟨fun _ _ _ _ => 200⟩

/-- Encoders belonging to `m1cx`. -/
def e1cx : Encoders := ⟨["A"], ["B"], ["C"]⟩

/-- Encoders belonging to `m2cx` (never written in the scenario). -/
def e2cx : Encoders := ⟨["X"], ["Y"], ["Z"]⟩

/-- The filesystem state in the middle of a second `save_model m2cx e2cx`:
the complete first bundle `(m1cx, e1cx)` has been saved, and only the first
of the two writes of the second save (the model file) has happened. -/
def fsPartialCx : FS := fsWrite (save_model m1cx e1cx []) MODEL_PATH (.mdl m2cx)

/-- Counterexample to C7 as stated: a partially-written bundle IS loadable as
valid.  In the state where only the model file of a second save has been
written, `load_model` succeeds and returns the new model paired with the old
save's encoders — a mismatched bundle (`e1cx ≠ e2cx`), not a failure. -/
theorem c7_counterexample_partial_bundle_loads :
    load_model fsPartialCx MODEL_PATH = .ok (m2cx, e1cx) ∧ e1cx ≠ e2cx :=
  ⟨by rfl, by decide⟩

/-- C7 amended: loading does fail whenever the model file or the derived
encoders file is missing or holds the wrong kind of artifact (so a bundle
with an absent half is never loaded), and a successful load returns exactly
the current contents of the two files; but the two files carry no
consistency link, so a state in which only one of them has been rewritten
loads successfully as a mixed bundle (see the counterexample). -/
theorem c7_load_model_two_files :
    (∀ (fs : FS) (path : String) (m : SkModel) (e : Encoders),
        load_model fs path = .ok (m, e) →
        fsRead fs path = some (.mdl m) ∧ fsRead fs (encoderPathFor path) = some (.enc e)) ∧
    (∀ (fs : FS) (path : String),
        fsRead fs path = none ∨ fsRead fs (encoderPathFor path) = none →
        ∃ err, load_model fs path = .error err) := by
  constructor
  · intro fs path m e h
    unfold load_model at h
    cases hm : fsRead fs path with
    | none => rw [hm] at h; exact absurd h (by simp)
    | some entry =>
      rw [hm] at h
      cases entry with
      | enc e2 => exact absurd h (by simp)
      | mdl m2 =>
        cases he : fsRead fs (encoderPathFor path) with
        | none => rw [he] at h; exact absurd h (by simp)
        | some entry2 =>
          rw [he] at h
          cases entry2 with
          | mdl m3 => exact absurd h (by simp)
          | enc e2 =>
            simp only [Except.ok.injEq, Prod.mk.injEq] at h
            exact ⟨by rw [h.1], by rw [h.2]⟩
  · intro fs path h
    unfold load_model
    cases hm : fsRead fs path with
    | none => exact ⟨.loadError path, rfl⟩
    | some entry =>
      cases entry with
      | enc e2 => exact ⟨.loadError path, rfl⟩
      | mdl m2 =>
        cases he : fsRead fs (encoderPathFor path) with
        | none => exact ⟨.loadError (encoderPathFor path), rfl⟩
        | some entry2 =>
          rcases h with h | h
          · rw [hm] at h; exact absurd h (by simp)
          · rw [he] at h; exact absurd h (by simp)

/-- Witness for C7's amended claim: in the state holding only a model file
(the moment between the two writes of the very first save), loading fails. -/
theorem c7_load_model_two_files_witness :
    fsRead (fsWrite [] MODEL_PATH (.mdl m1cx)) (encoderPathFor MODEL_PATH) = none ∧
    ∃ err, load_model (fsWrite [] MODEL_PATH (.mdl m1cx)) MODEL_PATH = .error err :=
  ⟨by rfl,
    (c7_load_model_two_files).2 (fsWrite [] MODEL_PATH (.mdl m1cx)) MODEL_PATH
      (Or.inr (by rfl))⟩

/-! ### C1: the selection loop picks the first-seen minimum -/

theorem isFirstMin_head_le {α : Type} {h : α × ℚ} {t : List (α × ℚ)} {c : α × ℚ}
    (H : IsFirstMin (h :: t) c) : c.2 ≤ h.2 := by
  obtain ⟨pre, post, he, hpre, _⟩ := H
  cases pre with
  | nil =>
    simp only [List.nil_append] at he
    injection he with h1 _
    rw [h1]
  | cons p ps =>
    simp only [List.cons_append] at he
    injection he with h1 _
    rw [h1]
    exact le_of_lt (hpre p (List.mem_cons_self p ps))

theorem selectBest_go_spec {α : Type} :
    ∀ (xs : List (α × ℚ)) (b : α × ℚ),
      ∃ c, xs.foldl selectStep (some b) = some c ∧ IsFirstMin (b :: xs) c := by
  intro xs
  induction xs with
  | nil =>
    intro b
    exact ⟨b, rfl, [], [], rfl, by simp, by simp⟩
  | cons x xs ih =>
    intro b
    by_cases hx : x.2 < b.2
    · obtain ⟨c, hc, hfm⟩ := ih x
      have hcx : c.2 ≤ x.2 := isFirstMin_head_le hfm
      obtain ⟨pre, post, he, hpre, hpost⟩ := hfm
      refine ⟨c, ?_, b :: pre, post, ?_, ?_, hpost⟩
      · rw [List.foldl_cons]
        have hstep : selectStep (some b) x = some x := by
          simp [selectStep, if_pos hx]
        rw [hstep]
        exact hc
      · simp [he]
      · intro y hy
        rcases List.mem_cons.1 hy with rfl | hy2
        · exact lt_of_le_of_lt hcx hx
        · exact hpre y hy2
    · obtain ⟨c, hc, hfm⟩ := ih b
      have hstep : selectStep (some b) x = some b := by
        simp [selectStep, if_neg hx]
      obtain ⟨pre, post, he, hpre, hpost⟩ := hfm
      cases pre with
      | nil =>
        simp only [List.nil_append] at he
        injection he with h1 h2
        refine ⟨c, ?_, [], x :: xs, ?_, by simp, ?_⟩
        · rw [List.foldl_cons, hstep]; exact hc
        · simp [h1]
        · intro y hy
          rcases List.mem_cons.1 hy with rfl | hy2
          · rw [← h1]; exact not_lt.1 hx
          · exact hpost y (h2 ▸ hy2)
      | cons p ps =>
        simp only [List.cons_append] at he
        injection he with h1 h2
        have hcb : c.2 < b.2 := by
          rw [h1]; exact hpre p (List.mem_cons_self p ps)
        refine ⟨c, ?_, b :: x :: ps, post, ?_, ?_, hpost⟩
        · rw [List.foldl_cons, hstep]; exact hc
        · simp [h2]
        · intro y hy
          rcases List.mem_cons.1 hy with rfl | hy2
          · exact hcb
          · rcases List.mem_cons.1 hy2 with rfl | hy3
            · exact lt_of_lt_of_le hcb (not_lt.1 hx)
            · exact hpre y (List.mem_cons_of_mem p hy3)

/-- C1: the selection loop of train_models returns the candidate with the
strictly lowest test error; when several candidates tie on the minimum, the
one earliest in the fixed iteration order wins (first-seen minimum).  In
particular, for candidate errors [5000, 3000, 3000] over the fixed order
Linear Regression, Random Forest, Gradient Boosting, the second candidate
(Random Forest) is selected. -/
theorem c1_select_best_first_min :
    (∀ (α : Type) (l : List (α × ℚ)), l ≠ [] →
      ∃ c, selectBest l = some c ∧ IsFirstMin l c) ∧
    selectBest [("Linear Regression", (5000 : ℚ)), ("Random Forest", 3000),
      ("Gradient Boosting", 3000)] = some ("Random Forest", 3000) := by
  constructor
  · intro α l hl
    cases l with
    | nil => exact absurd rfl hl
    | cons x xs =>
      obtain ⟨c, hc, hfm⟩ := selectBest_go_spec xs x
      refine ⟨c, ?_, hfm⟩
      rw [selectBest, List.foldl_cons]
      exact hc
  · with_unfolding_all rfl

/-- Witness for C1: applying the first-seen-minimum theorem to the concrete
tied candidate list of the claim. -/
theorem c1_select_best_first_min_witness :
    ([("Linear Regression", (5000 : ℚ)), ("Random Forest", 3000),
        ("Gradient Boosting", 3000)] ≠ ([] : List (String × ℚ))) ∧
    ∃ c, selectBest [("Linear Regression", (5000 : ℚ)), ("Random Forest", 3000),
        ("Gradient Boosting", 3000)] = some c ∧
      IsFirstMin [("Linear Regression", (5000 : ℚ)), ("Random Forest", 3000),
        ("Gradient Boosting", 3000)] c :=
  ⟨by simp, c1_select_best_first_min.1 String _ (by simp)⟩

/-! ### C8: encoder round-trip and dense code range -/

theorem mem_dropDupsAux {α : Type} [DecidableEq α] (x : α) :
    ∀ (l seen : List α), x ∈ dropDupsAux seen l ↔ x ∈ l ∧ x ∉ seen := by
  intro l
  induction l with
  | nil => intro seen; simp [dropDupsAux]
  | cons y ys ih =>
    intro seen
    by_cases hy : y ∈ seen
    · rw [dropDupsAux, if_pos hy, ih]
      constructor
      · rintro ⟨h1, h2⟩; exact ⟨List.mem_cons_of_mem y h1, h2⟩
      · rintro ⟨h1, h2⟩
        rcases List.mem_cons.1 h1 with rfl | h3
        · exact absurd hy h2
        · exact ⟨h3, h2⟩
    · rw [dropDupsAux, if_neg hy]
      constructor
      · intro h
        rcases List.mem_cons.1 h with rfl | h2
        · exact ⟨List.mem_cons_self x ys, hy⟩
        · rw [ih] at h2
          exact ⟨List.mem_cons_of_mem y h2.1,
            fun hs => h2.2 (List.mem_cons_of_mem y hs)⟩
      · rintro ⟨h1, h2⟩
        by_cases hxy : x = y
        · subst hxy; exact List.mem_cons_self x _
        · rcases List.mem_cons.1 h1 with rfl | h3
          · exact absurd rfl hxy
          · refine List.mem_cons_of_mem y ((ih (y :: seen)).mpr ⟨h3, ?_⟩)
            intro hs
            rcases List.mem_cons.1 hs with rfl | h4
            · exact hxy rfl
            · exact h2 h4

theorem mem_dropDuplicates {α : Type} [DecidableEq α] (x : α) (l : List α) :
    x ∈ dropDuplicates l ↔ x ∈ l := by
  rw [dropDuplicates, mem_dropDupsAux]
  simp

theorem nodup_dropDupsAux {α : Type} [DecidableEq α] :
    ∀ (l seen : List α), (dropDupsAux seen l).Nodup := by
  intro l
  induction l with
  | nil => intro seen; simp [dropDupsAux]
  | cons y ys ih =>
    intro seen
    by_cases hy : y ∈ seen
    · rw [dropDupsAux, if_pos hy]; exact ih seen
    · rw [dropDupsAux, if_neg hy]
      refine List.nodup_cons.2 ⟨?_, ih (y :: seen)⟩
      intro hmem
      rw [mem_dropDupsAux] at hmem
      exact hmem.2 (List.mem_cons_self y seen)

theorem insertStr_perm (x : String) : ∀ l : List String, (insertStr x l).Perm (x :: l) := by
  intro l
  induction l with
  | nil => exact List.Perm.refl _
  | cons y ys ih =>
    rw [insertStr]
    by_cases hc : (decide (x < y) || x == y) = true
    · rw [if_pos hc]
    · rw [if_neg hc]
      exact (ih.cons y).trans (List.Perm.swap x y ys)

theorem sortStr_perm : ∀ l : List String, (sortStr l).Perm l := by
  intro l
  induction l with
  | nil => exact List.Perm.refl _
  | cons y ys ih =>
    have h1 : sortStr (y :: ys) = insertStr y (sortStr ys) := rfl
    rw [h1]
    exact (insertStr_perm y (sortStr ys)).trans (ih.cons y)

theorem mem_fit (v : String) (values : List String) :
    v ∈ LabelEncoder.fit values ↔ v ∈ values := by
  rw [LabelEncoder.fit, (sortStr_perm _).mem_iff, mem_dropDuplicates]

theorem nodup_fit (values : List String) : (LabelEncoder.fit values).Nodup := by
  rw [LabelEncoder.fit]
  exact (sortStr_perm _).nodup_iff.2 (nodup_dropDupsAux _ _)

theorem length_fit (values : List String) :
    (LabelEncoder.fit values).length = (dropDuplicates values).length := by
  rw [LabelEncoder.fit]
  exact (sortStr_perm _).length_eq

theorem idxOf_lt_length {v : String} : ∀ {l : List String}, v ∈ l → idxOf v l < l.length := by
  intro l
  induction l with
  | nil => intro h; exact absurd h (List.not_mem_nil v)
  | cons x xs ih =>
    intro h
    rw [idxOf]
    by_cases hx : x = v
    · rw [if_pos hx]; exact Nat.succ_pos _
    · rw [if_neg hx]
      have hv : v ∈ xs := by
        rcases List.mem_cons.1 h with rfl | h2
        · exact absurd rfl hx
        · exact h2
      exact Nat.succ_lt_succ (ih hv)

theorem get?_idxOf {v : String} : ∀ {l : List String}, v ∈ l → l.get? (idxOf v l) = some v := by
  intro l
  induction l with
  | nil => intro h; exact absurd h (List.not_mem_nil v)
  | cons x xs ih =>
    intro h
    rw [idxOf]
    by_cases hx : x = v
    · rw [if_pos hx, hx]; rfl
    · rw [if_neg hx]
      have hv : v ∈ xs := by
        rcases List.mem_cons.1 h with rfl | h2
        · exact absurd rfl hx
        · exact h2
      exact ih hv

theorem idxOf_get : ∀ (l : List String), l.Nodup → ∀ (c : ℕ) (h : c < l.length),
    idxOf (l.get ⟨c, h⟩) l = c := by
  intro l
  induction l with
  | nil => intro _ c h; exact absurd h (by simp)
  | cons x xs ih =>
    intro hnd c h
    cases c with
    | zero => simp [idxOf]
    | succ c =>
      have hget : (x :: xs).get ⟨c + 1, h⟩ = xs.get ⟨c, Nat.lt_of_succ_lt_succ h⟩ := rfl
      rw [hget, idxOf]
      have hx : x ≠ xs.get ⟨c, Nat.lt_of_succ_lt_succ h⟩ := by
        intro heq
        exact (List.nodup_cons.1 hnd).1 (heq ▸ List.get_mem xs c (Nat.lt_of_succ_lt_succ h))
      rw [if_neg hx, ih (List.nodup_cons.1 hnd).2 c (Nat.lt_of_succ_lt_succ h)]

/-- C8: for the encoder fitted on any value list, every fitted value
round-trips (`inverse_transform (transform v) = v`), and the codes assigned
to fitted values are exactly the dense range [0, number_of_distinct_values):
every fitted value gets a code below the class count, every such code is hit
by some fitted value, and the class count equals the number of distinct
values. -/
theorem c8_label_encoder_round_trip_dense :
    ∀ values : List String,
      (∀ v, v ∈ values →
        ∃ c, LabelEncoder.transform (LabelEncoder.fit values) v = .ok c ∧
          LabelEncoder.inverse_transform (LabelEncoder.fit values) c = some v) ∧
      (∀ c : ℕ,
        (∃ v, v ∈ values ∧ LabelEncoder.transform (LabelEncoder.fit values) v = .ok c) ↔
          c < (LabelEncoder.fit values).length) ∧
      (LabelEncoder.fit values).length = (dropDuplicates values).length := by
  intro values
  refine ⟨?_, ?_, length_fit values⟩
  · intro v hv
    have hv2 : v ∈ LabelEncoder.fit values := (mem_fit v values).2 hv
    refine ⟨idxOf v (LabelEncoder.fit values), ?_, ?_⟩
    · rw [LabelEncoder.transform, if_pos hv2]
    · rw [LabelEncoder.inverse_transform]
      exact get?_idxOf hv2
  · intro c
    constructor
    · rintro ⟨v, hv, ht⟩
      have hv2 : v ∈ LabelEncoder.fit values := (mem_fit v values).2 hv
      rw [LabelEncoder.transform, if_pos hv2] at ht
      simp only [Except.ok.injEq] at ht
      rw [← ht]
      exact idxOf_lt_length hv2
    · intro hc
      refine ⟨(LabelEncoder.fit values).get ⟨c, hc⟩, ?_, ?_⟩
      · exact (mem_fit _ values).1 (List.get_mem _ c hc)
      · have hv2 : (LabelEncoder.fit values).get ⟨c, hc⟩ ∈ LabelEncoder.fit values :=
          List.get_mem _ c hc
        rw [LabelEncoder.transform, if_pos hv2,
          idxOf_get (LabelEncoder.fit values) (nodup_fit values) c hc]

/-- Witness for C8 at a concrete value list: fitting on
["beta", "alpha", "beta"] gives classes ["alpha", "beta"]; the fitted value
"beta" transforms to a code that inverse-transforms back to "beta". -/
theorem c8_label_encoder_round_trip_dense_witness :
    "beta" ∈ ["beta", "alpha", "beta"] ∧
    ∃ c, LabelEncoder.transform (LabelEncoder.fit ["beta", "alpha", "beta"]) "beta" = .ok c ∧
      LabelEncoder.inverse_transform (LabelEncoder.fit ["beta", "alpha", "beta"]) c
        = some "beta" :=
  ⟨by decide, (c8_label_encoder_round_trip_dense ["beta", "alpha", "beta"]).1 "beta" (by decide)⟩

/-! ### C6: an uncoercible year/price aborts cleaning (no record-level drop) -/

theorem coerceRecords_error_of_mem :
    ∀ (l : List RawRecord) (r : RawRecord), r ∈ l → coerceRecord r = none →
      ∃ msg, coerceRecords l = .error msg := by
  intro l
  induction l with
  | nil => intro r hr; exact absurd hr (List.not_mem_nil r)
  | cons x xs ih =>
    intro r hr hbad
    rcases List.mem_cons.1 hr with rfl | hr2
    · exact ⟨"invalid literal for int", by rw [coerceRecords, hbad]⟩
    · cases hx : coerceRecord x with
      | none => exact ⟨"invalid literal for int", by rw [coerceRecords, hx]⟩
      | some c =>
        obtain ⟨msg, hmsg⟩ := ih r hr2 hbad
        refine ⟨msg, ?_⟩
        rw [coerceRecords, hx, hmsg]
        rfl

/-- C6 amended: clean_data coerces the year and price columns in bulk
(`astype(int)`); a record that survives missing-value removal but whose year
or price cannot be coerced makes the whole cleaning step raise, aborting the
pipeline — the record is not individually rejected and counted as the claim
states. -/
theorem c6_clean_data_aborts_on_uncoercible :
    ∀ (X : List RawRecord) (r : RawRecord),
      r ∈ X → r.allPresent = true → coerceRecord r = none →
      ∃ msg, clean_data X = .error msg := by
  intro X r hr hp hbad
  have hmem : r ∈ X.filter RawRecord.allPresent := List.mem_filter.2 ⟨hr, hp⟩
  obtain ⟨msg, hmsg⟩ := coerceRecords_error_of_mem _ r hmem hbad
  refine ⟨msg, ?_⟩
  simp only [clean_data, hmsg]

/-- A well-formed record for the C6 scenario. -/
def goodRawCx : RawRecord :=
  ⟨some (.vint 2024), some "Toyota", some "Corolla", some "Dream", some (.vint 1250000)⟩

/-- A record whose year is a non-numeric string: every field is present, but
`astype(int)` cannot coerce the year. -/
def badRawCx : RawRecord :=
  ⟨some (.vstr "abc"), some "Honda", some "Civic", some "Elegance", some (.vint 1000000)⟩

/-- Counterexample to C6 as stated: on a dataset containing one uncoercible
record, clean_data does not complete normally over the remaining records —
it returns an error for the whole dataset (the claim says the bad record is
rejected and cleaning completes). -/
theorem c6_counterexample_pipeline_aborts :
    ∃ msg, clean_data [goodRawCx, badRawCx] = .error msg :=
  ⟨"invalid literal for int", by rfl⟩

/-- Witness for C6's amended claim at the same concrete input. -/
theorem c6_clean_data_aborts_on_uncoercible_witness :
    badRawCx ∈ [goodRawCx, badRawCx] ∧ badRawCx.allPresent = true ∧
    coerceRecord badRawCx = none ∧
    ∃ msg, clean_data [goodRawCx, badRawCx] = .error msg :=
  ⟨by decide, by decide, by decide,
    c6_clean_data_aborts_on_uncoercible [goodRawCx, badRawCx] badRawCx
      (by decide) (by decide) (by decide)⟩

/-! ### C5: cleaning is not idempotent (the IQR stage can fire twice) -/

theorem dropDupsAux_idem {α : Type} [DecidableEq α] :
    ∀ (l seen : List α), dropDupsAux seen (dropDupsAux seen l) = dropDupsAux seen l := by
  intro l
  induction l with
  | nil => intro seen; rfl
  | cons y ys ih =>
    intro seen
    by_cases hy : y ∈ seen
    · rw [dropDupsAux, if_pos hy, ih]
    · rw [dropDupsAux, if_neg hy]
      conv_lhs => rw [dropDupsAux, if_neg hy]
      rw [ih (y :: seen)]

theorem dropDuplicates_idem {α : Type} [DecidableEq α] (l : List α) :
    dropDuplicates (dropDuplicates l) = dropDuplicates l :=
  dropDupsAux_idem l []

theorem allPresent_toRaw (r : CleanRecord) : r.toRaw.allPresent = true := rfl

theorem filter_allPresent_toRaw (Y : List CleanRecord) :
    (Y.map CleanRecord.toRaw).filter RawRecord.allPresent = Y.map CleanRecord.toRaw := by
  refine List.filter_eq_self.2 ?_
  intro a ha
  obtain ⟨r, _, rfl⟩ := List.mem_map.1 ha
  exact allPresent_toRaw r

theorem coerceRecord_toRaw (r : CleanRecord) : coerceRecord r.toRaw = some r := rfl

theorem coerceRecords_toRaw : ∀ Y : List CleanRecord,
    coerceRecords (Y.map CleanRecord.toRaw) = .ok Y := by
  intro Y
  induction Y with
  | nil => rfl
  | cons r rs ih =>
    rw [List.map_cons, coerceRecords, coerceRecord_toRaw, ih]
    rfl

/-- C5 amended: clean_data is idempotent exactly on the outputs where the
recomputed IQR bounds exclude no surviving record.  For every dataset X whose
cleaning succeeds with output Y, if rerunning the outlier stage on Y removes
zero records then clean(clean(X)) = clean(X); the counterexample shows that
without that condition a second pass can remove further records, so the
unconditional idempotence of the claim fails. -/
theorem c5_clean_data_conditionally_idempotent :
    ∀ (X : List RawRecord) (Y : List CleanRecord),
      clean_data X = .ok Y → iqrOutlierStage Y = Y →
      clean_data (Y.map CleanRecord.toRaw) = .ok Y := by
  intro X Y hX h2
  have hdY : dropDuplicates Y = Y := by
    simp only [clean_data] at hX
    cases hc : coerceRecords (X.filter RawRecord.allPresent) with
    | error e => rw [hc] at hX; exact absurd hX (by simp)
    | ok typed =>
      rw [hc] at hX
      simp only [Except.ok.injEq] at hX
      rw [← hX, dropDuplicates_idem]
  simp only [clean_data, filter_allPresent_toRaw, coerceRecords_toRaw, h2, hdY]

/-- Raw record constructor for the C5 concrete datasets: fixed year, brand
and package, varying model name and price. -/
def mkRawCx (mo : String) (pr : ℤ) : RawRecord :=
  ⟨some (.vint 2020), some "B", some mo, some "P", some (.vint pr)⟩

/-- Clean record constructor matching `mkRawCx`. -/
def mkCleanCx (mo : String) (pr : ℤ) : CleanRecord := ⟨2020, "B", mo, "P", pr⟩

/-- The C5 counterexample dataset: prices [1,1,1,1,1,1,1,20,50,50].  The
first IQR pass has Q1 = 1, Q3 = 15.25, upper bound 36.625: it removes only
the two 50s and keeps 20.  Over the survivors Q1 = Q3 = 1, so the bounds
collapse to [1, 1] and a second pass removes the 20. -/
def X10cx : List RawRecord :=
  [mkRawCx "m1" 1, mkRawCx "m2" 1, mkRawCx "m3" 1, mkRawCx "m4" 1, mkRawCx "m5" 1,
   mkRawCx "m6" 1, mkRawCx "m7" 1, mkRawCx "m8" 20, mkRawCx "m9" 50, mkRawCx "m10" 50]

/-- clean_data's output on `X10cx`: the 50s removed, the 20 kept. -/
def Y1cx : List CleanRecord :=
  [mkCleanCx "m1" 1, mkCleanCx "m2" 1, mkCleanCx "m3" 1, mkCleanCx "m4" 1,
   mkCleanCx "m5" 1, mkCleanCx "m6" 1, mkCleanCx "m7" 1, mkCleanCx "m8" 20]

/-- clean_data's output on `Y1cx` fed back in: the 20 is now an outlier. -/
def Y2cx : List CleanRecord :=
  [mkCleanCx "m1" 1, mkCleanCx "m2" 1, mkCleanCx "m3" 1, mkCleanCx "m4" 1,
   mkCleanCx "m5" 1, mkCleanCx "m6" 1, mkCleanCx "m7" 1]

/-- Counterexample to C5 as stated: cleaning is not idempotent.  On `X10cx`
the first clean keeps the price-20 record, and running clean_data again on
its own output removes one more record, so clean(clean(X)) differs from
clean(X) and the second IQR pass removes a nonzero number of records. -/
theorem c5_counterexample_clean_not_idempotent :
    clean_data X10cx = .ok Y1cx ∧
    clean_data (Y1cx.map CleanRecord.toRaw) = .ok Y2cx ∧ Y1cx ≠ Y2cx :=
  ⟨by with_unfolding_all rfl, by with_unfolding_all rfl, by decide⟩

/-- The C5 witness dataset: all prices equal, so the IQR bounds collapse onto
the single price value and the second pass removes nothing. -/
def XWcx : List RawRecord := [mkRawCx "w1" 10, mkRawCx "w2" 10, mkRawCx "w3" 10]

/-- clean_data's (fixed-point) output on `XWcx`. -/
def YWcx : List CleanRecord := [mkCleanCx "w1" 10, mkCleanCx "w2" 10, mkCleanCx "w3" 10]

/-- Witness for C5's amended claim: on a constant-price dataset the second
outlier pass removes nothing and cleaning is idempotent. -/
theorem c5_clean_data_conditionally_idempotent_witness :
    clean_data XWcx = .ok YWcx ∧ iqrOutlierStage YWcx = YWcx ∧
    clean_data (YWcx.map CleanRecord.toRaw) = .ok YWcx :=
  ⟨by with_unfolding_all rfl, by with_unfolding_all rfl,
    c5_clean_data_conditionally_idempotent XWcx YWcx
      (by with_unfolding_all rfl) (by with_unfolding_all rfl)⟩

/-! ### C4: train_models has no dataset-sufficiency check -/

theorem selectBest_cons_some {α : Type} (x : α × ℚ) (l : List (α × ℚ)) :
    ∃ c, selectBest (x :: l) = some c := by
  obtain ⟨c, hc, _⟩ := selectBest_go_spec l x
  refine ⟨c, ?_⟩
  rw [selectBest, List.foldl_cons]
  exact hc

theorem encode_features_length (df : List CleanRecord) :
    (encode_features df).1.length = df.length := by
  simp [encode_features]

theorem train_models_core_ok (rows : List EncRecord) (encs : Encoders)
    (sh : List EncRecord → List EncRecord) (f1 f2 f3 : Fitter) (h : 2 ≤ rows.length) :
    ∃ out, train_models_core rows encs sh f1 f2 f3 = .ok out := by
  have hcond : ¬((rows.length + 4) / 5 = 0 ∨ rows.length - (rows.length + 4) / 5 = 0) := by
    omega
  simp only [train_models_core]
  rw [if_neg hcond]
  simp only [List.map_cons, List.map_nil]
  obtain ⟨c, hc⟩ := selectBest_cons_some
    (("Linear Regression", f1 ((sh rows).drop ((rows.length + 4) / 5))),
      mseOn (f1 ((sh rows).drop ((rows.length + 4) / 5)))
        ((sh rows).take ((rows.length + 4) / 5)))
    [(("Random Forest", f2 ((sh rows).drop ((rows.length + 4) / 5))),
      mseOn (f2 ((sh rows).drop ((rows.length + 4) / 5)))
        ((sh rows).take ((rows.length + 4) / 5))),
     (("Gradient Boosting", f3 ((sh rows).drop ((rows.length + 4) / 5))),
      mseOn (f3 ((sh rows).drop ((rows.length + 4) / 5)))
        ((sh rows).take ((rows.length + 4) / 5)))]
  rw [hc]
  exact ⟨_, rfl⟩

theorem train_models_core_err (rows : List EncRecord) (encs : Encoders)
    (sh : List EncRecord → List EncRecord) (f1 f2 f3 : Fitter) (h : rows.length < 2) :
    train_models_core rows encs sh f1 f2 f3 = .error .emptySplit := by
  have hcond : (rows.length + 4) / 5 = 0 ∨ rows.length - (rows.length + 4) / 5 = 0 := by
    omega
  simp only [train_models_core]
  rw [if_pos hcond]

/-- C4 amended: train_models performs no dataset-sufficiency check.  With
freshly fitted encoders, on any dataset with at least two records (so both
the 80% train and the ceil-20% test partitions are non-empty) it fits and
returns a model — even when the dataset has a single distinct price value;
it fails only when a partition would be empty, i.e. on fewer than two
records, and that failure is train_test_split's empty-partition error, not a
price-variance check. -/
theorem c4_train_models_no_sufficiency_check :
    (∀ (df : List CleanRecord) (sh : List EncRecord → List EncRecord) (f1 f2 f3 : Fitter),
        2 ≤ df.length → ∃ out, train_models df none sh f1 f2 f3 = .ok out) ∧
    (∀ (df : List CleanRecord) (sh : List EncRecord → List EncRecord) (f1 f2 f3 : Fitter),
        df.length < 2 → train_models df none sh f1 f2 f3 = .error .emptySplit) := by
  constructor
  · intro df sh f1 f2 f3 h
    have hlen : (encode_features df).1.length = df.length := encode_features_length df
    exact train_models_core_ok (encode_features df).1 (encode_features df).2 sh f1 f2 f3
      (by omega)
  · intro df sh f1 f2 f3 h
    have hlen : (encode_features df).1.length = df.length := encode_features_length df
    exact train_models_core_err (encode_features df).1 (encode_features df).2 sh f1 f2 f3
      (by omega)

/-- The opaque constant fitter used for the C4 concrete scenario (sklearn's
fit succeeds on a constant target; the returned regressor is opaque). -/
def cfCx : Fitter := fun _ => ⟨fun _ _ _ _ => 0⟩

/-- Five records with a single distinct price value. -/
def records5cx : List CleanRecord :=
  [mkCleanCx "m1" 500000, mkCleanCx "m2" 500000, mkCleanCx "m3" 500000,
   mkCleanCx "m4" 500000, mkCleanCx "m5" 500000]

/-- Counterexample to C4 as stated: on a cleaned dataset whose price column
has exactly one distinct value, train_models does not fail with a
"dataset insufficient" error — it trains and returns a model. -/
theorem c4_counterexample_constant_price_trains :
    (dropDuplicates (records5cx.map CleanRecord.price)).length = 1 ∧
    (train_models records5cx none id cfCx cfCx cfCx).isOk = true :=
  ⟨by with_unfolding_all rfl, by with_unfolding_all rfl⟩

/-- Witness for C4's amended claim: the two-record constant-price dataset
trains (first part), and the one-record dataset hits exactly the
empty-partition error (second part). -/
theorem c4_train_models_no_sufficiency_check_witness :
    (2 ≤ ([mkCleanCx "w1" 7, mkCleanCx "w2" 7] : List CleanRecord).length ∧
      ∃ out, train_models [mkCleanCx "w1" 7, mkCleanCx "w2" 7] none id cfCx cfCx cfCx
        = .ok out) ∧
    (([mkCleanCx "w1" 7] : List CleanRecord).length < 2 ∧
      train_models [mkCleanCx "w1" 7] none id cfCx cfCx cfCx = .error .emptySplit) :=
  ⟨⟨by decide,
      c4_train_models_no_sufficiency_check.1 [mkCleanCx "w1" 7, mkCleanCx "w2" 7]
        id cfCx cfCx cfCx (by decide)⟩,
    ⟨by decide,
      c4_train_models_no_sufficiency_check.2 [mkCleanCx "w1" 7]
        id cfCx cfCx cfCx (by decide)⟩⟩
